import Mathlib

/-!
Verification development for the eth-metrics benchmarking tool
(`src/child_guard.rs`, `src/runner.rs`, `src/main.rs`).

The Rust source is embedded shallowly:

* `ChildGuard` (child_guard.rs) becomes a pure record; the observable side
  effects of each method (signals sent, lines printed, whether the call
  blocks waiting on a live process) are returned explicitly in an `Effect`
  record.  `try_wait` never blocks; `wait` blocks exactly when the process
  has not yet exited.
* The watchdog race inside `ChildGuard::terminate` is modelled by a timed
  schedule (`TerminateSchedule`) recording the real-time instants of the
  three relevant events: the process exit, the watchdog's flag load
  (which happens after its 10 s sleep), and the main thread's flag store
  (which happens only after `wait` has reaped the process).
* The readiness loop of `Runner::wait_until_ready` is embedded as a
  recursion over the per-iteration observations (health-check outcome,
  timeout-flag value, RPC query outcome), in the exact order the Rust
  loop consults them.
* The block-speed resampling inside `Runner::collect_data` and the
  statistics in `Runner::analyse` are embedded over `ℚ`: the `f64`
  arithmetic of the source is modelled by exact rational arithmetic, with
  the two non-finite cases that are actually reachable (division by zero
  producing `+∞`, and the saturating `as usize` cast) handled explicitly.
  A Rust panic is modelled as `Option.none` / `RResult.panicked`;
  `std_dev` is carried as its square (the sample variance), since the
  square root leaves `ℚ`.
* The orchestration loop of `main.rs::run` is embedded over an abstract
  list of per-run stage outcomes.
-/

namespace EthMetrics

/-! ## ChildGuard (child_guard.rs) -/

/-- The state of the underlying OS process owned by a guard:
its pid, its exit status if it has already exited (`none` while it is
still running), and the stderr output buffered in its pipe. -/
structure ChildProc where
  pid : ℕ
  exited : Option ℕ
  stderrBuf : String
deriving DecidableEq

/-- `ChildGuard { child: Option<Child>, terminated: Arc<AtomicBool> }`
(child_guard.rs lines 10-13), viewed sequentially: the atomic flag is a
plain boolean here; the load/store race with the watchdog thread is
modelled separately by `TerminateSchedule`. -/
structure ChildGuard where
  child : Option ChildProc
  terminated : Bool
deriving DecidableEq

/-- A signal sent with `libc::kill`. -/
inductive Sig where
  | sigterm (pid : ℕ)
  | sigkill (pid : ℕ)
deriving DecidableEq

/-- Observable effects of one guard method call: its return value, the
signals it sent, the lines it printed, and whether it blocked waiting for
a live process to exit (`try_wait` never blocks; `wait` blocks iff the
process has not exited yet; `wait_with_output` on an already-exited
process drains the pipes without waiting). -/
structure Effect (α : Type) where
  result : α
  signals : List Sig
  printed : List String
  blocked : Bool
deriving DecidableEq

/-- `ChildGuard::check` (child_guard.rs lines 23-41).
`try_wait`: `child = None` or a still-running child returns `Ok(())`
at once; an exited child is replaced by `None`, its buffered stderr is
printed with `println!`, and an error mentioning only the exit status is
returned.  (The `Err` branches of `try_wait`/`wait_with_output`, which
report OS-level failures, are outside the model.) -/
def ChildGuard.check (g : ChildGuard) : ChildGuard × Effect (Except String Unit) :=
  match g.child with
  | none => (g, ⟨.ok (), [], [], false⟩)
  | some c =>
    match c.exited with
    | none => (g, ⟨.ok (), [], [], false⟩)
    | some status =>
        ({ g with child := none },
         ⟨.error ("Process exited unexpectedly with status " ++ toString status),
          [], [c.stderrBuf], false⟩)

/-- `ChildGuard::terminate` (child_guard.rs lines 43-71), sequential view.
If the `terminated` flag is already set, or the child has already been
taken (`child = None`), it returns at once with no signal.  Otherwise it
sends `SIGTERM`, blocks on `wait` (which returns immediately iff the
process has already exited), and then stores `terminated := true`.
The watchdog thread it spawns is modelled by `TerminateSchedule` below;
its conditional `SIGKILL` is not part of this call's own signal list. -/
def ChildGuard.terminate (g : ChildGuard) : ChildGuard × Effect Unit :=
  if g.terminated then (g, ⟨(), [], [], false⟩)
  else
    match g.child with
    | none => (g, ⟨(), [], [], false⟩)
    | some c =>
        ({ g with terminated := true },
         ⟨(), [.sigterm c.pid], [], c.exited.isNone⟩)

/-- `impl Drop for ChildGuard` (child_guard.rs lines 74-89): if the guard
was not terminated and still holds a child, print and send `SIGKILL`
immediately; otherwise do nothing. -/
def ChildGuard.drop (g : ChildGuard) : Effect Unit :=
  if g.terminated then ⟨(), [], [], false⟩
  else
    match g.child with
    | none => ⟨(), [], [], false⟩
    | some c => ⟨(), [.sigkill c.pid], ["Force-kill the process."], false⟩

/-! ## The terminate/watchdog race (child_guard.rs lines 59-70) -/

/-- Real-time instants (in seconds) of the three events that decide
whether the watchdog's forced kill fires, in one execution of
`ChildGuard::terminate` on a not-yet-terminated guard (time 0 is the
entry into `terminate`):
* `exitTime`   — the child process exits;
* `loadTime`   — the watchdog thread reads the `terminated` flag, after
  `thread::sleep(Duration::from_secs(10))`;
* `storeTime`  — the main thread runs `terminated.store(true)`, which the
  code places after `child.wait()` has reaped the process. -/
structure TerminateSchedule where
  exitTime : ℚ
  loadTime : ℚ
  storeTime : ℚ
deriving DecidableEq

/-- The orderings every real execution of the code satisfies:
the exit is not before the call; the watchdog sleeps 10 s before its
load; the store strictly follows the reap, hence the exit; and the two
`SeqCst` accesses to the flag are totally ordered (distinct instants). -/
def TerminateSchedule.wf (s : TerminateSchedule) : Prop :=
  0 ≤ s.exitTime ∧ 10 ≤ s.loadTime ∧ s.exitTime < s.storeTime ∧ s.loadTime ≠ s.storeTime

instance (s : TerminateSchedule) : Decidable s.wf := by
  unfold TerminateSchedule.wf; infer_instance

/-- The watchdog body (child_guard.rs lines 59-67): after its sleep it
loads the flag and sends `SIGKILL` iff the load still sees `false`,
i.e. iff the main thread's store has not yet happened. -/
def TerminateSchedule.forcedKill (s : TerminateSchedule) : Bool :=
  decide (s.loadTime < s.storeTime)

/-! ## Runner::wait_until_ready (runner.rs lines 173-207) -/

/-- What one iteration of the readiness loop observes, in the order the
code consults them: the result of `child.check()` (`some msg` if the
process has died), the value the `timedout` flag holds at the load, and
whether `web3.eth().block_number().wait()` succeeds. -/
structure ReadyObs where
  died : Option String
  timedout : Bool
  queryOk : Bool
deriving DecidableEq

/-- Outcome of the readiness loop.  `pending` means the supplied trace of
iteration observations ran out while the loop was still spinning. -/
inductive ReadyResult where
  | processDied (msg : String)
  | timeout
  | ready
  | pending
deriving DecidableEq

/-- The `loop` of `Runner::wait_until_ready`: each iteration first
propagates a `check()` failure with `?`, then tests the `timedout` flag
and returns the timeout error, then queries the node and on success
breaks out (returning `Ok(())`); on query failure it sleeps 500 ms and
loops. -/
def waitUntilReadyLoop : List ReadyObs → ReadyResult
  | [] => .pending
  | o :: rest =>
    match o.died with
    | some msg => .processDied msg
    | none =>
      if o.timedout then .timeout
      else if o.queryOk then .ready
      else waitUntilReadyLoop rest

/-! ## Block-speed resampling (runner.rs lines 257-284)

`collect_data` stores `times[i] = duration_as_f64(elapsed_i)` and
`block_heights[i]`, `peer_counts[i]` as `f64`; these are carried here as
exact rationals. -/

/-- `BLOCK_SPEEDS_AVERAGE_DURATION.as_secs() as f64` (runner.rs line 25). -/
def avg_secs : ℚ := 10

/-- `usize::MAX`, the value a non-negative infinite `f64` saturates to
under `as usize`. -/
def usizeMax : ℕ := 2 ^ 64 - 1

/-- `let avg_factor = (times.len() as f64 / duration * avg_secs) as usize`
(runner.rs line 263), where `duration = times[times.len() - 1]`.
In `f64`, dividing a positive count by a zero duration yields `+∞`, and
`as usize` saturates it to `usize::MAX`; for finite non-negative values
`as usize` truncates toward zero (and negative values saturate to 0,
which `Nat.floor` also yields). -/
def avgFactor (times : List ℚ) : ℕ :=
  let duration := times.getLastD 0
  if duration = 0 then usizeMax
  else ⌊(times.length : ℚ) / duration * avg_secs⌋₊

/-- The `block_speeds_line` block of `Runner::collect_data`
(runner.rs lines 257-284), producing `(block_speeds_times, block_speeds)`.
`none` models a panic: on an empty series `times[times.len() - 1]` is an
out-of-bounds index, and when `avg_factor = 0` the range bound
`(times.len() - 1) / avg_factor` is an integer division by zero.
Otherwise the leading `(0, 0)` point is pushed and the loop
`for index in 1..((times.len() - 1) / avg_factor)` appends one point per
window; `List.range' 1 (m - 1)` is exactly the Rust range `1..m`.
`getD _ _ 0` stands for Rust indexing; the indices are proved in bounds
in `blockSpeedsLine_no_oob` below. -/
def blockSpeedsLine (times block_heights : List ℚ) : Option (List ℚ × List ℚ) :=
  if times.length = 0 then none
  else
    let factor := avgFactor times
    if factor = 0 then none
    else
      let m := (times.length - 1) / factor
      let idxs := List.range' 1 (m - 1)
      some (0 :: idxs.map (fun i => times.getD (i * factor) 0),
            0 :: idxs.map (fun i =>
              (block_heights.getD (i * factor) 0 - block_heights.getD ((i - 1) * factor) 0)
              / (times.getD (i * factor) 0 - times.getD ((i - 1) * factor) 0)))

/-! ## Runner::analyse (runner.rs lines 293-339)

The statistics methods come from the `statrs` crate: on an empty slice
`min`/`max`/`mean` return `NaN`, and the sample variance (hence
`std_dev`) returns `NaN` on fewer than two values; `NaN` is modelled as
`Option.none`.  `std_dev` is carried as its square, the sample variance,
since the square root leaves `ℚ`. -/

/-- `statrs` `min` over a slice: `NaN` (here `none`) on an empty slice. -/
def statMin (l : List ℚ) : Option ℚ := l.min?

/-- `statrs` `max` over a slice: `NaN` (here `none`) on an empty slice. -/
def statMax (l : List ℚ) : Option ℚ := l.max?

/-- `statrs` `mean` over a slice: `NaN` (here `none`) on an empty slice. -/
def statMean (l : List ℚ) : Option ℚ :=
  if l.length = 0 then none else some (l.sum / l.length)

/-- `statrs` sample variance (the square of `std_dev`): `NaN` (here
`none`) on fewer than two values, else `Σ (x - mean)² / (n - 1)`. -/
def statVariance (l : List ℚ) : Option ℚ :=
  if l.length ≤ 1 then none
  else
    let m := l.sum / l.length
    some ((l.map (fun x => (x - m) ^ 2)).sum / ((l.length : ℚ) - 1))

/-- The summary statistics the `analyse` loops format for one run:
min/max/mean of the post-warm-up slice and the sample variance
(the square of the printed `std_dev`). -/
structure StatsQ where
  min : Option ℚ
  max : Option ℚ
  mean : Option ℚ
  variance : Option ℚ
deriving DecidableEq

/-- `&values[skip..]`: Rust slicing panics (`none`) when `skip` exceeds
the length, and yields the (possibly empty) suffix otherwise. -/
def sliceFrom (skip : ℕ) (values : List ℚ) : Option (List ℚ) :=
  if skip ≤ values.length then some (values.drop skip) else none

/-- `ANALYSIS_TIME_SKIP` (runner.rs line 24), in seconds. -/
def ANALYSIS_TIME_SKIP_SECS : ℚ := 60 * 5

/-- `DATA_COLLECTION_INTERVAL` (runner.rs line 27), in seconds. -/
def DATA_COLLECTION_INTERVAL_SECS : ℚ := 1 / 2

/-- `let skip_index = (duration_as_f64(ANALYSIS_TIME_SKIP) /
duration_as_f64(DATA_COLLECTION_INTERVAL)) as usize` (runner.rs
line 303): the warm-up skip used for the peer-count statistics. -/
def peerSkipIndex : ℕ := ⌊ANALYSIS_TIME_SKIP_SECS / DATA_COLLECTION_INTERVAL_SECS⌋₊

/-- `let skip_index = (ANALYSIS_TIME_SKIP.as_secs() /
BLOCK_SPEEDS_AVERAGE_DURATION.as_secs()) as usize` (runner.rs line 319):
the warm-up skip used for the block-speed statistics. -/
def speedSkipIndex : ℕ := 300 / 10

/-- Result of a Rust function in the model: a panic, an `Err`, or `Ok`. -/
inductive RResult (α : Type) where
  | panicked
  | err (msg : String)
  | ok (a : α)
deriving DecidableEq

/-- The per-run data accumulated by the `Runner` across runs
(runner.rs lines 63-65): for each run, its `(times, values)` line. -/
structure RunnerData where
  block_heights : List (List ℚ × List ℚ)
  block_speeds : List (List ℚ × List ℚ)
  peer_counts : List (List ℚ × List ℚ)
deriving DecidableEq

/-- The first `analyse` loop (runner.rs lines 305-315): for each run's
peer counts, slice off the warm-up prefix (panicking — `none` — when
`peerSkipIndex` exceeds the length) and take min/max/mean/std-dev. -/
def peerLoop : List (List ℚ × List ℚ) → Option (List StatsQ)
  | [] => some []
  | (_, pc) :: rest =>
    match sliceFrom peerSkipIndex pc with
    | none => none
    | some s =>
      (peerLoop rest).map (fun l =>
        (⟨statMin s, statMax s, statMean s, statVariance s⟩ : StatsQ) :: l)

/-- The second `analyse` loop (runner.rs lines 321-330): for the `index`-th
run's block speeds, slice off the warm-up prefix, take mean/std-dev, and
read the run's final block height via
`self.block_heights[index - 1].1[... .len() - 1]` — which panics when
the run index is out of range of `block_heights` or when that run's
heights vector is empty. -/
def speedLoop (bh : List (List ℚ × List ℚ)) :
    List (List ℚ × List ℚ) → ℕ → Option (List (Option ℚ × Option ℚ × ℚ))
  | [], _ => some []
  | (_, speeds) :: rest, idx =>
    match sliceFrom speedSkipIndex speeds with
    | none => none
    | some s =>
      match bh.get? idx with
      | none => none
      | some run =>
        match run.2.getLast? with
        | none => none
        | some mx =>
          (speedLoop bh rest (idx + 1)).map (fun l =>
            (statMean s, statVariance s, mx) :: l)

/-- `Runner::analyse` (runner.rs lines 293-339): error out when no run
has been collected, then run the peer-count loop and the block-speed
loop (in that order; a slicing or indexing panic in either aborts the
whole call), returning the statistics the report is formatted from. -/
def analyse (d : RunnerData) :
    RResult (List StatsQ × List (Option ℚ × Option ℚ × ℚ)) :=
  if d.block_heights.length = 0 then .err "No data have been collected."
  else
    match peerLoop d.peer_counts with
    | none => .panicked
    | some peer =>
      match speedLoop d.block_heights d.block_speeds 0 with
      | none => .panicked
      | some sp => .ok (peer, sp)

/-! ## The orchestration loop (main.rs lines 33-83) -/

/-- Whether each stage of one run (`start`, `wait_until_ready`,
`collect_data`, `stop`) would succeed, abstracting the environment. -/
structure RunOutcome where
  startOk : Bool
  readyOk : Bool
  collectOk : Bool
  stopOk : Bool
deriving DecidableEq

/-- The orchestrator-visible state: how many run series the `Runner`
has accumulated (`collect_data` pushes them only at its successful end),
and whether the `analyse` and `plot` stages have been entered. -/
structure OrchState where
  collected : ℕ
  analyseInvoked : Bool
  plotInvoked : Bool
deriving DecidableEq

/-- One iteration of the `for run_idx in 0..NUM_RUNS` loop
(main.rs lines 50-76): each stage is called with `?`, so the first
failing stage returns its error immediately; `collect_data` appends the
run's series just before returning `Ok`, so a later `stop` failure still
leaves the series accumulated. -/
def doRun (st : OrchState) (o : RunOutcome) : OrchState × Option String :=
  if !o.startOk then (st, some "start failed")
  else if !o.readyOk then (st, some "wait_until_ready failed")
  else if !o.collectOk then (st, some "collect_data failed")
  else
    let st' := { st with collected := st.collected + 1 }
    if !o.stopOk then (st', some "stop failed") else (st', none)

/-- The run loop over the (abstracted) outcomes of the successive runs:
the first error propagates by `?`, skipping all later runs. -/
def runLoop : OrchState → List RunOutcome → OrchState × Option String
  | st, [] => (st, none)
  | st, o :: rest =>
    match doRun st o with
    | (st', some e) => (st', some e)
    | (st', none) => runLoop st' rest

/-- `main.rs::run` (lines 33-83): run the loop; any error propagates out
of `run` at once (by `?`), so `analyse` and `plot` are reached only when
every run succeeded.  `analyse` itself errors when nothing was collected
(and then `plot`, also guarded by `?`, is not reached). -/
def runProgram (outcomes : List RunOutcome) : OrchState × Option String :=
  match runLoop ⟨0, false, false⟩ outcomes with
  | (st, some e) => (st, some e)
  | (st, none) =>
    let st' := { st with analyseInvoked := true }
    if st'.collected = 0 then (st', some "No data have been collected.")
    else ({ st' with plotInvoked := true }, none)

/-! ## Theorems -/

/-- C5: `terminate()` is idempotent: for every guard, calling
`terminate()` a second time (or calling it after the process has already
exited — both the already-checked `child = None` state and the
exited-but-unreaped state are instances of the quantified guard) leaves
the guard state unchanged, sends no signal on the second call (so at
most one termination signal is sent in total), and the second call does
not block. -/
theorem c5_terminate_idempotent (g : ChildGuard) :
    (g.terminate.1.terminate).1 = g.terminate.1 ∧
    (g.terminate.1.terminate).2.signals = [] ∧
    (g.terminate.1.terminate).2.blocked = false ∧
    (g.terminate.2.signals ++ (g.terminate.1.terminate).2.signals).length ≤ 1 := by
  rcases g with ⟨child, term⟩
  cases term <;> rcases child with _ | c <;>
    simp [ChildGuard.terminate]

/-- C7 (counterexample): the claim says the error returned by
`check` for an exited process carries both the exit status and the
buffered stderr.  It does not carry the stderr: two guards whose
children differ only in their buffered stderr (`"boom-a"` vs `"boom-b"`)
produce exactly the same error value, so the stderr cannot be recovered
from the error — the code only prints the stderr to stdout
(child_guard.rs line 39) and puts just the status into the error
(line 40). -/
theorem c7_counterexample :
    (ChildGuard.check ⟨some ⟨7, some 1, "boom-a"⟩, false⟩).2.result
      = (ChildGuard.check ⟨some ⟨7, some 1, "boom-b"⟩, false⟩).2.result ∧
    ("boom-a" : String) ≠ "boom-b" := by
  exact ⟨rfl, by decide⟩

/-- C7 (amended): `check` on a guard whose process is still running (or
whose child handle is already gone) returns `Ok(())`, unchanged state,
and does not block; on a guard whose process has exited it returns an
error carrying the exit status only, while the buffered stderr is
printed to stdout rather than attached to the error. -/
theorem c7_check_behavior (g : ChildGuard) :
    (g.child = none → g.check = (g, ⟨.ok (), [], [], false⟩)) ∧
    (∀ c, g.child = some c → c.exited = none →
      g.check = (g, ⟨.ok (), [], [], false⟩)) ∧
    (∀ c st, g.child = some c → c.exited = some st →
      g.check = ({ g with child := none },
        ⟨.error ("Process exited unexpectedly with status " ++ toString st),
         [], [c.stderrBuf], false⟩)) := by
  refine ⟨fun h => ?_, fun c hc hx => ?_, fun c st hc hx => ?_⟩
  · simp [ChildGuard.check, h]
  · simp [ChildGuard.check, hc, hx]
  · simp [ChildGuard.check, hc, hx]

/-- Witness for `c7_check_behavior` at concrete guards: a running child
(pid 3), a missing child, and an exited child (status 9, stderr "oops"). -/
theorem c7_check_behavior_witness :
    ChildGuard.check ⟨some ⟨3, none, "x"⟩, false⟩
      = (⟨some ⟨3, none, "x"⟩, false⟩, ⟨.ok (), [], [], false⟩) ∧
    ChildGuard.check ⟨none, false⟩ = (⟨none, false⟩, ⟨.ok (), [], [], false⟩) ∧
    ChildGuard.check ⟨some ⟨3, some 9, "oops"⟩, false⟩
      = (⟨none, false⟩,
         ⟨.error ("Process exited unexpectedly with status " ++ toString 9),
          [], ["oops"], false⟩) :=
  ⟨(c7_check_behavior ⟨some ⟨3, none, "x"⟩, false⟩).2.1 ⟨3, none, "x"⟩ rfl rfl,
   (c7_check_behavior ⟨none, false⟩).1 rfl,
   (c7_check_behavior ⟨some ⟨3, some 9, "oops"⟩, false⟩).2.2 ⟨3, some 9, "oops"⟩ 9 rfl rfl⟩

/-- C10: once `check()` has returned the exited-unexpectedly error, the
guard has dropped its child handle; every subsequent `check()` on the
guard returns `Ok(())` and leaves the state fixed (so this holds for all
later calls as well), and a subsequent `terminate()` or teardown (`drop`)
sends no signal at all. -/
theorem c10_check_clears_child (g : ChildGuard) (c : ChildProc) (st : ℕ)
    (hc : g.child = some c) (hx : c.exited = some st) :
    (g.check).1.child = none ∧
    (∃ e, (g.check).2.result = .error e) ∧
    ((g.check).1.check) = ((g.check).1, ⟨.ok (), [], [], false⟩) ∧
    ((g.check).1.terminate).2.signals = [] ∧
    ((g.check).1.terminate).1 = (g.check).1 ∧
    ((g.check).1.drop).signals = [] := by
  rcases g with ⟨child, term⟩
  cases hc
  cases term <;>
    simp [ChildGuard.check, hx, ChildGuard.terminate, ChildGuard.drop]

/-- Witness for `c10_check_clears_child` at a concrete guard holding an
exited child (pid 3, status 2). -/
theorem c10_check_clears_child_witness :
    ((⟨some ⟨3, some 2, "x"⟩, false⟩ : ChildGuard).check).1.child = none ∧
    (∃ e, ((⟨some ⟨3, some 2, "x"⟩, false⟩ : ChildGuard).check).2.result = .error e) ∧
    (((⟨some ⟨3, some 2, "x"⟩, false⟩ : ChildGuard).check).1.check)
      = (((⟨some ⟨3, some 2, "x"⟩, false⟩ : ChildGuard).check).1,
         ⟨.ok (), [], [], false⟩) ∧
    (((⟨some ⟨3, some 2, "x"⟩, false⟩ : ChildGuard).check).1.terminate).2.signals = [] ∧
    (((⟨some ⟨3, some 2, "x"⟩, false⟩ : ChildGuard).check).1.terminate).1
      = ((⟨some ⟨3, some 2, "x"⟩, false⟩ : ChildGuard).check).1 ∧
    (((⟨some ⟨3, some 2, "x"⟩, false⟩ : ChildGuard).check).1.drop).signals = [] :=
  c10_check_clears_child ⟨some ⟨3, some 2, "x"⟩, false⟩ ⟨3, some 2, "x"⟩ 2 rfl rfl

/-- C4 (counterexample): the claim says that when the process exits
gracefully before the 10 s grace period elapses, no forced kill is
issued.  The schedule `exit at 5 s, watchdog load at 10 s, flag store at
11 s` satisfies every ordering the code enforces (`wf`), the process
exits before the grace period, and yet the watchdog's load sees the flag
still `false` (the store — which the code places after reaping — has not
happened yet), so `SIGKILL` is sent: the plain load/store pair is not
the claimed atomic check-and-set. -/
theorem c4_counterexample :
    (⟨5, 10, 11⟩ : TerminateSchedule).wf ∧
    (⟨5, 10, 11⟩ : TerminateSchedule).exitTime < 10 ∧
    (⟨5, 10, 11⟩ : TerminateSchedule).forcedKill = true := by
  refine ⟨⟨?_, ?_, ?_, ?_⟩, ?_, ?_⟩ <;> decide

/-- C4 (amended): in every execution of `terminate`'s watchdog race, the
single forced kill is decided purely by the order of the watchdog's
plain flag load and the main thread's flag store: the kill is skipped
iff the store precedes the load.  Since the store happens only after
reaping, a skipped kill implies the process had already exited before
the watchdog's check, and a process still alive at the check always gets
the kill; but (per the counterexample) an exit before the grace period
does not prevent the kill — there is no atomic check-and-set. -/
theorem c4_forced_kill_decision (s : TerminateSchedule) (h : s.wf) :
    (s.forcedKill = false ↔ s.storeTime < s.loadTime) ∧
    (s.loadTime < s.exitTime → s.forcedKill = true) ∧
    (s.forcedKill = false → s.exitTime < s.loadTime) := by
  obtain ⟨h0, h10, hes, hne⟩ := h
  unfold TerminateSchedule.forcedKill
  refine ⟨?_, fun hlt => ?_, fun hf => ?_⟩
  · simp only [decide_eq_false_iff_not, not_lt]
    exact ⟨fun hle => lt_of_le_of_ne hle (Ne.symm hne), le_of_lt⟩
  · simp only [decide_eq_true_eq]
    linarith
  · simp only [decide_eq_false_iff_not, not_lt] at hf
    have : s.storeTime < s.loadTime := lt_of_le_of_ne hf (Ne.symm hne)
    linarith

/-- Witness for `c4_forced_kill_decision` at the concrete schedule
`exit at 0 s, load at 10 s, store at 5 s`: no forced kill is issued, and
the theorem yields that the process had indeed exited before the check. -/
theorem c4_forced_kill_decision_witness :
    (⟨0, 10, 5⟩ : TerminateSchedule).forcedKill = false ∧
    (⟨0, 10, 5⟩ : TerminateSchedule).exitTime
      < (⟨0, 10, 5⟩ : TerminateSchedule).loadTime :=
  ⟨by decide,
   (c4_forced_kill_decision ⟨0, 10, 5⟩
      ⟨by decide, by decide, by decide, by decide⟩).2.2 (by decide)⟩

/-- C6: the readiness loop checks the process's liveness before it
consults the timeout flag in every iteration, so (first part) on any
trace in which every iteration that sees the timeout flag set also sees
the process dead — which is exactly the situation where the process
exited before the readiness timeout elapsed, since `check` observes an
earlier exit immediately — the loop never returns `Timeout`; and
(second part) on any trace where the process never dies and no query
succeeds, reaching an iteration with the timeout flag set yields
`Timeout`. -/
theorem c6_ready_death_beats_timeout (t : List ReadyObs) :
    ((∀ o ∈ t, o.timedout = true → o.died.isSome) →
      waitUntilReadyLoop t ≠ .timeout) ∧
    ((∀ o ∈ t, o.died = none ∧ o.queryOk = false) →
      (∃ o ∈ t, o.timedout = true) →
      waitUntilReadyLoop t = .timeout) := by
  induction t with
  | nil =>
      refine ⟨fun _ => by simp [waitUntilReadyLoop], fun _ h => ?_⟩
      simp at h
  | cons o rest ih =>
      obtain ⟨od, ot, oq⟩ := o
      constructor
      · intro h
        have ho := h ⟨od, ot, oq⟩ (List.mem_cons_self _ _)
        cases od with
        | some msg => exact fun hcon => ReadyResult.noConfusion hcon
        | none =>
            cases ot with
            | true => simp at ho
            | false =>
                cases oq with
                | true => exact fun hcon => ReadyResult.noConfusion hcon
                | false =>
                    exact ih.1 (fun p hp => h p (List.mem_cons_of_mem _ hp))
      · intro hnone hex
        obtain ⟨h1, h2⟩ := hnone ⟨od, ot, oq⟩ (List.mem_cons_self _ _)
        simp only at h1 h2
        subst h1; subst h2
        cases ot with
        | true => rfl
        | false =>
            refine ih.2 (fun p hp => hnone p (List.mem_cons_of_mem _ hp)) ?_
            rcases hex with ⟨p, hp, hpt⟩
            rcases List.mem_cons.1 hp with rfl | hp
            · exact absurd hpt (by simp)
            · exact ⟨p, hp, hpt⟩

/-- Witness for `c6_ready_death_beats_timeout`: a one-iteration trace in
which the process is observed dead while the timeout flag is already set
does not yield `Timeout` (it yields `ProcessDied`), and a two-iteration
trace with the process alive, queries failing and the flag set on the
second iteration yields `Timeout`. -/
theorem c6_ready_death_beats_timeout_witness :
    waitUntilReadyLoop [⟨some "process died", true, false⟩] ≠ .timeout ∧
    waitUntilReadyLoop [⟨none, false, false⟩, ⟨none, true, false⟩] = .timeout :=
  ⟨(c6_ready_death_beats_timeout [⟨some "process died", true, false⟩]).1
      (by
        intro o ho
        simp only [List.mem_singleton] at ho
        subst ho
        intro
        rfl),
   (c6_ready_death_beats_timeout [⟨none, false, false⟩, ⟨none, true, false⟩]).2
      (by
        intro o ho
        rcases List.mem_cons.1 ho with rfl | ho
        · exact ⟨rfl, rfl⟩
        · simp only [List.mem_singleton] at ho
          subst ho
          exact ⟨rfl, rfl⟩)
      ⟨⟨none, true, false⟩, by simp⟩⟩

/-- Whether all four stages of a run succeed. -/
def runOk (o : RunOutcome) : Bool :=
  o.startOk && o.readyOk && o.collectOk && o.stopOk

/-- The run loop walks an all-successful prefix accumulating one
collected series per run and touching nothing else. -/
theorem runLoop_completed_runs (pre : List RunOutcome) :
    ∀ (st : OrchState), (∀ p ∈ pre, runOk p = true) →
    ∀ rest, runLoop st (pre ++ rest)
      = runLoop { st with collected := st.collected + pre.length } rest := by
  induction pre with
  | nil => intro st _ rest; simp
  | cons p pre ih =>
      intro st h rest
      have hp := h p (List.mem_cons_self _ _)
      simp only [runOk, Bool.and_eq_true] at hp
      obtain ⟨⟨⟨h1, h2⟩, h3⟩, h4⟩ := hp
      have hd : doRun st p = ({ st with collected := st.collected + 1 }, none) := by
        simp [doRun, h1, h2, h3, h4]
      have step : runLoop st ((p :: pre) ++ rest)
          = runLoop { st with collected := st.collected + 1 } (pre ++ rest) := by
        rw [List.cons_append]
        simp [runLoop, hd]
      rw [step, ih _ (fun q hq => h q (List.mem_cons_of_mem _ hq))]
      have hlen : st.collected + 1 + pre.length = st.collected + (p :: pre).length := by
        simp [List.length_cons]; omega
      rw [hlen]

/-- C1 (counterexample): with two runs where the first completes fully
and the second fails at its start, the orchestrator surfaces the error
with the analysis and plotting stages never invoked, even though one
run's results had been collected (and remain stored): `main.rs::run`
propagates the first failure with `?` straight past `analyse()` and
`plot()`. -/
theorem c1_counterexample :
    runProgram [⟨true, true, true, true⟩, ⟨false, true, true, true⟩]
      = (⟨1, false, false⟩, some "start failed") := by
  rfl

/-- C1 (amended): when any stage of some run fails after a (possibly
empty) prefix of fully successful runs, `run` returns that stage's error
immediately: the analysis and plotting stages are not invoked, while the
results of every completed data collection (including one from the
failing run itself when only its `stop` failed) remain accumulated in
the runner — preserved, but unused for reporting. -/
theorem c1_run_failure_skips_analysis (pre post : List RunOutcome) (o : RunOutcome)
    (hpre : ∀ p ∈ pre, runOk p = true) (hfail : runOk o = false) :
    ∃ e, runProgram (pre ++ o :: post)
      = ({ collected := pre.length + (if o.startOk && o.readyOk && o.collectOk then 1 else 0),
           analyseInvoked := false, plotInvoked := false }, some e) := by
  unfold runProgram
  rw [runLoop_completed_runs pre _ hpre]
  simp only [runLoop, doRun]
  simp only [runOk] at hfail
  cases h1 : o.startOk with
  | false => exact ⟨"start failed", by simp [h1]⟩
  | true =>
    cases h2 : o.readyOk with
    | false => exact ⟨"wait_until_ready failed", by simp [h1, h2]⟩
    | true =>
      cases h3 : o.collectOk with
      | false => exact ⟨"collect_data failed", by simp [h1, h2, h3]⟩
      | true =>
        cases h4 : o.stopOk with
        | false =>
            refine ⟨"stop failed", by simp [h1, h2, h3, h4]⟩
        | true => rw [h1, h2, h3, h4] at hfail; simp at hfail

/-- Witness for `c1_run_failure_skips_analysis`: one fully successful
run followed by a run whose `stop` fails; the error surfaces with the
two collected series preserved and analysis/plotting skipped. -/
theorem c1_run_failure_skips_analysis_witness :
    ∃ e, runProgram [⟨true, true, true, true⟩, ⟨true, true, true, false⟩]
      = ({ collected := 1 + (if true && true && true then 1 else 0),
           analyseInvoked := false, plotInvoked := false }, some e) :=
  c1_run_failure_skips_analysis [⟨true, true, true, true⟩] []
    ⟨true, true, true, false⟩ (by intro p hp; simp at hp; simp [hp, runOk])
    (by simp [runOk])

/-- Unfolding of `blockSpeedsLine` on a non-empty series whose window
factor is non-zero: the leading `(0, 0)` point followed by the windowed
points of the `for index in 1..m` loop. -/
theorem blockSpeedsLine_eq (times heights : List ℚ) (hne : times.length ≠ 0)
    (hf : avgFactor times ≠ 0) :
    blockSpeedsLine times heights
      = some (0 :: (List.range' 1 ((times.length - 1) / avgFactor times - 1)).map
                (fun i => times.getD (i * avgFactor times) 0),
              0 :: (List.range' 1 ((times.length - 1) / avgFactor times - 1)).map
                (fun i => (heights.getD (i * avgFactor times) 0
                    - heights.getD ((i - 1) * avgFactor times) 0)
                  / (times.getD (i * avgFactor times) 0
                    - times.getD ((i - 1) * avgFactor times) 0))) := by
  simp only [blockSpeedsLine, if_neg hne, if_neg hf]

/-- Every index the windowing loop reads stays strictly below the series
length: `i * f` for the window end and `(i - 1) * f` for the window
start, for each `i` drawn from the Rust range `1..((len - 1) / f)`. -/
theorem range'_window_indices_lt (len f : ℕ) (hf : f ≠ 0) (_hlen : len ≠ 0) :
    ∀ i ∈ List.range' 1 ((len - 1) / f - 1), i * f < len ∧ (i - 1) * f < len := by
  intro i hi
  obtain ⟨h1i, hilt⟩ := List.mem_range'_1.1 hi
  have hmul : ((len - 1) / f) * f ≤ len - 1 := Nat.div_mul_le_self _ _
  have hm1 : 1 ≤ (len - 1) / f := by omega
  have him : i ≤ (len - 1) / f - 1 := by omega
  have h2 : i * f ≤ ((len - 1) / f - 1) * f := Nat.mul_le_mul_right _ him
  have hs : ((len - 1) / f - 1) * f = ((len - 1) / f) * f - f := Nat.sub_one_mul _ _
  have hfM : f ≤ ((len - 1) / f) * f := by
    have h1f : 1 * f ≤ ((len - 1) / f) * f := Nat.mul_le_mul_right _ hm1
    simpa using h1f
  have hf1 : 1 ≤ f := Nat.one_le_iff_ne_zero.2 hf
  have hifn : i * f < len := by omega
  exact ⟨hifn, lt_of_le_of_lt (Nat.mul_le_mul_right _ (Nat.sub_le i 1)) hifn⟩

/-- C2 (counterexample): the claim says the factor is
`round(sample_count / total_duration * window_seconds)` clamped to a
minimum of 1, and that no division by zero occurs for any non-empty
input.  On the non-empty series with two samples spanning 100 s the code
computes `(2.0 / 100.0 * 10.0) as usize = 0` — truncation with no
clamp — and the loop bound `(times.len() - 1) / avg_factor` is then an
integer division by zero (a panic, modelled as `none`), not a series. -/
theorem c2_counterexample :
    avgFactor [0, 100] = 0 ∧ blockSpeedsLine [0, 100] [0, 1] = none := by
  have h : avgFactor [0, 100] = 0 := by
    simp only [avgFactor, avg_secs, List.getLastD, List.length]
    norm_num [Nat.floor_eq_zero]
  exact ⟨h, by simp [blockSpeedsLine, h]⟩

/-- C2 (amended): the factor is the truncation (not rounding) of
`sample_count / total_duration * window_seconds`, with no minimum
clamp.  When the truncated factor is 0 the computation panics with an
integer division by zero; when it is non-zero the computation always
returns a series (no panic), a factor exceeding the available
samples yields only the leading point, and every index the loop reads
is within bounds. -/
theorem c2_factor_behavior (times heights : List ℚ) (hne : times.length ≠ 0) :
    (avgFactor times = 0 → blockSpeedsLine times heights = none) ∧
    (avgFactor times ≠ 0 → (blockSpeedsLine times heights).isSome = true) ∧
    (avgFactor times ≠ 0 → times.length - 1 < avgFactor times →
      blockSpeedsLine times heights = some ([0], [0])) ∧
    (avgFactor times ≠ 0 →
      ∀ i ∈ List.range' 1 ((times.length - 1) / avgFactor times - 1),
        i * avgFactor times < times.length
          ∧ (i - 1) * avgFactor times < times.length) := by
  refine ⟨fun h0 => ?_, fun hf => ?_, fun hf hlt => ?_, fun hf => ?_⟩
  · simp [blockSpeedsLine, hne, h0]
  · rw [blockSpeedsLine_eq times heights hne hf]; rfl
  · have hm : (times.length - 1) / avgFactor times = 0 := Nat.div_eq_of_lt hlt
    rw [blockSpeedsLine_eq times heights hne hf, hm]
    simp
  · exact range'_window_indices_lt times.length (avgFactor times) hf hne

/-- Witness for `c2_factor_behavior` on the concrete series
`[0, 1, 2]` (three samples spanning 2 s, so the factor is
`⌊3 / 2 * 10⌋ = 15`, exceeding the two available deltas): the result is
the degenerate leading-point-only series. -/
theorem c2_factor_behavior_witness :
    blockSpeedsLine [0, 1, 2] [5, 6, 7] = some ([0], [0]) := by
  have h15 : avgFactor [0, 1, 2] = 15 := by
    simp only [avgFactor, avg_secs, List.getLastD, List.length]
    norm_num
  exact (c2_factor_behavior [0, 1, 2] [5, 6, 7] (by decide)).2.2.1
    (by rw [h15]; decide) (by rw [h15]; decide)

/-- C9 (counterexample): the claim says the resampling returns a series
whose first element is `(0.0, 0.0)` for every non-empty input.  The
non-empty series `[0, 0, 100]` has factor `⌊3 / 100 * 10⌋ = 0`, so the
computation panics on the integer division by zero and returns no
series at all. -/
theorem c9_counterexample :
    ([0, 0, 100] : List ℚ) ≠ [] ∧ blockSpeedsLine [0, 0, 100] [0, 0, 1] = none := by
  have h : avgFactor [0, 0, 100] = 0 := by
    simp only [avgFactor, avg_secs, List.getLastD, List.length]
    norm_num [Nat.floor_eq_zero]
  exact ⟨by decide, by simp [blockSpeedsLine, h]⟩

/-- C9 (amended): whenever the resampling returns at all — that is, on a
non-empty input whose window factor is non-zero — the returned series
starts with the leading `(0.0, 0.0)` point, and the two component lists
have equal length. -/
theorem c9_leading_point (times heights : List ℚ) (hne : times.length ≠ 0)
    (hf : avgFactor times ≠ 0) :
    ∃ ts ss, blockSpeedsLine times heights = some (0 :: ts, 0 :: ss)
      ∧ ts.length = ss.length := by
  rw [blockSpeedsLine_eq times heights hne hf]
  exact ⟨_, _, rfl, by simp⟩

/-- Witness for `c9_leading_point` on the concrete non-empty series
`[0, 1, 2]`. -/
theorem c9_leading_point_witness :
    ∃ ts ss, blockSpeedsLine [0, 1, 2] [1, 2, 3] = some (0 :: ts, 0 :: ss)
      ∧ ts.length = ss.length := by
  have h15 : avgFactor [0, 1, 2] = 15 := by
    simp only [avgFactor, avg_secs, List.getLastD, List.length]
    norm_num
  exact c9_leading_point [0, 1, 2] [1, 2, 3] (by decide) (by rw [h15]; decide)

/-- Reading the elapsed-times list of an arithmetic run at an in-bounds
index. -/
theorem getD_map_range (q : ℕ → ℚ) (n j : ℕ) (hj : j < n) :
    ((List.range n).map q).getD j 0 = q j := by
  rw [List.getD_eq_getElem _ _ (by simpa using hj)]
  simp

/-- C8: on a run whose `metricA` grows by exactly `k` per tick of
duration `d` (sample `i` is taken at elapsed time `d * i` with height
`a + k * i`), every non-leading rate of the resampled series equals
`k / d` — exactly, since the `f64` arithmetic is modelled by exact
rationals: each window's rate is
`(heights[cur] - heights[prev]) / (times[cur] - times[prev])
  = (k * factor) / (d * factor) = k / d`.
The factor hypothesis states that the resampling does not hit the
division-by-zero panic of the degenerate zero-factor case. -/
theorem c8_constant_rate (n : ℕ) (d k a : ℚ) (hn : 2 ≤ n) (_hd : 0 < d)
    (hf : avgFactor ((List.range n).map (fun i : ℕ => d * i)) ≠ 0) :
    ∃ ts ss,
      blockSpeedsLine ((List.range n).map (fun i : ℕ => d * i))
        ((List.range n).map (fun i : ℕ => a + k * i)) = some (ts, 0 :: ss) ∧
      ∀ r ∈ ss, r = k / d := by
  have hlen : ((List.range n).map (fun i : ℕ => d * i)).length = n := by simp
  have hne : ((List.range n).map (fun i : ℕ => d * i)).length ≠ 0 := by omega
  rw [blockSpeedsLine_eq _ _ hne hf]
  refine ⟨_, _, rfl, ?_⟩
  intro r hr
  simp only [List.mem_map] at hr
  obtain ⟨i, hi, rfl⟩ := hr
  have hbounds := range'_window_indices_lt
    ((List.range n).map (fun i : ℕ => d * i)).length (avgFactor _) hf hne i hi
  rw [hlen] at hbounds
  obtain ⟨hcur, hprev⟩ := hbounds
  obtain ⟨h1i, _⟩ := List.mem_range'_1.1 hi
  rw [getD_map_range _ _ _ hcur, getD_map_range _ _ _ hprev,
      getD_map_range _ _ _ hcur, getD_map_range _ _ _ hprev]
  set f := avgFactor ((List.range n).map (fun i : ℕ => d * i)) with hfdef
  have hnat : (i - 1) * f + f = i * f := by
    have : (i - 1) * f = i * f - f := Nat.sub_one_mul _ _
    have hfi : f ≤ i * f := by
      have := Nat.mul_le_mul_right f h1i
      simpa using this
    omega
  have hsub : ((i * f : ℕ) : ℚ) - (((i - 1) * f : ℕ) : ℚ) = (f : ℚ) := by
    rw [← hnat]
    push_cast
    ring
  have hfQ : (f : ℚ) ≠ 0 := Nat.cast_ne_zero.2 hf
  rw [show a + k * ((i * f : ℕ) : ℚ) - (a + k * (((i - 1) * f : ℕ) : ℚ))
        = k * (((i * f : ℕ) : ℚ) - (((i - 1) * f : ℕ) : ℚ)) from by ring,
      show d * ((i * f : ℕ) : ℚ) - d * (((i - 1) * f : ℕ) : ℚ)
        = d * (((i * f : ℕ) : ℚ) - (((i - 1) * f : ℕ) : ℚ)) from by ring,
      hsub, mul_comm k (f : ℚ), mul_comm d (f : ℚ)]
  exact mul_div_mul_left k d hfQ

/-- Witness for `c8_constant_rate`: three samples at ticks of 10 s with
`metricA` growing by 7 per tick from 2; the factor is `⌊3 / 20 * 10⌋ = 1`
and the single interior rate equals `7 / 10`. -/
theorem c8_constant_rate_witness :
    ∃ ts ss,
      blockSpeedsLine ((List.range 3).map (fun i : ℕ => 10 * i))
        ((List.range 3).map (fun i : ℕ => 2 + 7 * i)) = some (ts, 0 :: ss) ∧
      ∀ r ∈ ss, r = 7 / 10 :=
  c8_constant_rate 3 10 7 2 (by omega) (by norm_num)
    (by
      have hl : (List.range 3).map (fun i : ℕ => (10 : ℚ) * i) = [0, 10, 20] := by
        simp [List.range_succ]
        norm_num
      rw [hl]
      simp only [avgFactor, avg_secs, List.getLastD, List.length]
      norm_num)

/-- The peer-count warm-up skip computed on runner.rs line 303 is
`(300 s / 0.5 s) as usize = 600`. -/
theorem peerSkipIndex_eq : peerSkipIndex = 600 := by
  rw [peerSkipIndex, ANALYSIS_TIME_SKIP_SECS, DATA_COLLECTION_INTERVAL_SECS]
  rw [Nat.floor_eq_iff (by norm_num)]
  norm_num

/-- The first `analyse` loop panics as soon as some run's peer-count
vector is shorter than the warm-up skip (the slice `[skip_index..]` is
out of bounds). -/
theorem peerLoop_none {runs : List (List ℚ × List ℚ)}
    (h : ∃ p ∈ runs, p.2.length < peerSkipIndex) : peerLoop runs = none := by
  induction runs with
  | nil => simp at h
  | cons q rest ih =>
      obtain ⟨qt, qv⟩ := q
      rcases h with ⟨p, hp, hlt⟩
      rcases List.mem_cons.1 hp with rfl | hp
      · simp only at hlt
        simp only [peerLoop, sliceFrom]
        rw [if_neg (by omega)]
      · cases hsl : sliceFrom peerSkipIndex qv with
        | none => simp [peerLoop, hsl]
        | some s => simp [peerLoop, hsl, ih ⟨p, hp, hlt⟩]

/-- When every run's peer-count vector is at least as long as the
warm-up skip, the first `analyse` loop computes, for each run, the four
statistics over exactly the post-warm-up suffix `values[skip_index..]`. -/
theorem peerLoop_some {runs : List (List ℚ × List ℚ)}
    (h : ∀ p ∈ runs, peerSkipIndex ≤ p.2.length) :
    peerLoop runs = some (runs.map fun p =>
      ⟨statMin (p.2.drop peerSkipIndex), statMax (p.2.drop peerSkipIndex),
       statMean (p.2.drop peerSkipIndex), statVariance (p.2.drop peerSkipIndex)⟩) := by
  induction runs with
  | nil => simp [peerLoop]
  | cons q rest ih =>
      obtain ⟨qt, qv⟩ := q
      have hq := h (qt, qv) (List.mem_cons_self _ _)
      simp only at hq
      simp [peerLoop, sliceFrom, if_pos hq,
        ih (fun p hp => h p (List.mem_cons_of_mem _ hp))]

/-- C3 (counterexample): the claim says the summary-statistics
computation returns an `InsufficientData` error — not a panic — whenever
the warm-up skip reaches the slice length.  On stored data from one run
with a single peer-count sample, the skip (600) exceeds the slice length
(1): `analyse` panics on the out-of-bounds slice `peer_count[600..]`
rather than returning any error value (the only error it can return,
"No data have been collected.", tests the number of runs, not slice
lengths). -/
theorem c3_counterexample :
    ([42] : List ℚ).length < peerSkipIndex ∧
    analyse ⟨[([0], [5])], [([0], [0])], [([0], [42])]⟩ = .panicked := by
  have h6 : peerSkipIndex = 600 := peerSkipIndex_eq
  constructor
  · rw [h6]; decide
  · have hp : peerLoop [([0], [42])] = none :=
      peerLoop_none ⟨([0], [42]), by simp, by simp [h6]⟩
    simp [analyse, hp]

/-- C3 (amended): `analyse` returns its (only) error value exactly when
zero runs were collected; with at least one run stored, a peer-count
vector shorter than the warm-up skip makes it panic on the slice (no
error value); and whenever every vector is long enough, the computed
statistics are min/max/mean/std-dev (the latter carried as its square,
the sample variance) of exactly `values[warmup_skip_index..]` — with an
empty suffix producing `NaN` statistics (`none`), again not an error. -/
theorem c3_analyse_behavior (d : RunnerData) :
    (d.block_heights.length = 0 → analyse d = .err "No data have been collected.") ∧
    (d.block_heights.length ≠ 0 →
      (∃ p ∈ d.peer_counts, p.2.length < peerSkipIndex) → analyse d = .panicked) ∧
    ((∀ p ∈ d.peer_counts, peerSkipIndex ≤ p.2.length) →
      peerLoop d.peer_counts = some (d.peer_counts.map fun p =>
        ⟨statMin (p.2.drop peerSkipIndex), statMax (p.2.drop peerSkipIndex),
         statMean (p.2.drop peerSkipIndex), statVariance (p.2.drop peerSkipIndex)⟩)) := by
  refine ⟨fun h0 => by simp [analyse, h0], fun hne hex => ?_,
    fun hall => peerLoop_some hall⟩
  simp [analyse, hne, peerLoop_none hex]

/-- Witness for `c3_analyse_behavior` at concrete data: no runs at all
(the error), one run with a two-sample peer-count vector (the panic),
and an empty run list for the statistics clause. -/
theorem c3_analyse_behavior_witness :
    analyse ⟨[], [], []⟩ = .err "No data have been collected." ∧
    analyse ⟨[([0], [5])], [], [([0, 1], [41, 42])]⟩ = .panicked ∧
    peerLoop ([] : List (List ℚ × List ℚ)) = some [] :=
  ⟨(c3_analyse_behavior ⟨[], [], []⟩).1 rfl,
   (c3_analyse_behavior ⟨[([0], [5])], [], [([0, 1], [41, 42])]⟩).2.1
      (by decide)
      ⟨([0, 1], [41, 42]), by simp, by rw [peerSkipIndex_eq]; decide⟩,
   by
    have := (c3_analyse_behavior ⟨[], [], []⟩).2.2 (by simp)
    simpa using this⟩

end EthMetrics
